import Mathlib

/-!
Verification development for the ollamachat extension core.

The TypeScript sources are shallowly embedded:
* strings are modelled as `List Char` (`Str`); the incremental `TextDecoder`
  is assumed to handle multi-byte characters split across reads, so a read
  chunk is a `Str` and byte boundaries become character boundaries;
* `JSON.parse` of a single line is an abstract parameter
  `parse : Str → Option JsonChunk` (returning `none` models a thrown
  `SyntaxError`, which the source catches and turns into a skipped line);
* the `fetch` response of `chatStream` is a record `HttpResponse` carrying
  `ok`, `status` and the list of body chunks delivered by the reader;
* `Map`/arrays become association lists / lists, `Date` values become
  millisecond integers, and the exact-rational value of a JavaScript float
  expression is used where the source does numeric computation.
-/

/-- Strings of the source are modelled as lists of characters. -/
abbrev Str := List Char

/-- Shape of one parsed streaming record of the Ollama chat wire protocol:
`{message:{content?, thinking?}, done?, prompt_eval_count?, eval_count?}`. -/
structure JsonChunk where
  messageContent : Option Str
  messageThinking : Option Str
  done : Option Bool
  prompt_eval_count : Option Nat
  eval_count : Option Nat
deriving DecidableEq, Repr

/-- The `ChatChunk` interface of `ollamaClient.ts`. -/
structure ChatChunk where
  content : Str
  thinking : Str
  done : Bool
  promptTokens : Option Nat
  evalTokens : Option Nat
deriving DecidableEq, Repr

/-- The object literal yielded by `chatStream` for one parsed record:
`content: chunk.message?.content || ''`, `thinking: chunk.message?.thinking || ''`,
`done: chunk.done || false`, and the two raw count fields. -/
def toChatChunk (j : JsonChunk) : ChatChunk :=
  { content := j.messageContent.getD []
    thinking := j.messageThinking.getD []
    done := j.done.getD false
    promptTokens := j.prompt_eval_count
    evalTokens := j.eval_count }

/-- JavaScript `!line.trim()`: true iff the line is empty after trimming,
i.e. consists only of whitespace. -/
def isBlank (l : Str) : Bool := l.all Char.isWhitespace

/-- Effect of the loop body `if (!line.trim()) continue; try {… yield …} catch {}`
on one candidate line: a blank line or an unparsable line contributes nothing,
a parsed line contributes exactly one `ChatChunk`. -/
def processLine (parse : Str → Option JsonChunk) (line : Str) : List ChatChunk :=
  if isBlank line then []
  else
    match parse line with
    | some j => [toChatChunk j]
    | none => []

/-- JavaScript `buffer.split('\n')` with the last fragment removed:
returns the complete lines and the retained remainder
(`const lines = buffer.split('\n'); buffer = lines.pop() || ''`). -/
def splitBuf : Str → List Str × Str
  | [] => ([], [])
  | c :: cs =>
    let p := splitBuf cs
    if c = '\n' then ([] :: p.1, p.2)
    else
      match p.1 with
      | [] => ([], c :: p.2)
      | l :: ls => ((c :: l) :: ls, p.2)

/-- The frame-decoding loop of `chatStream` (lines 104-145 of
`ollamaClient.ts`): starting from the current buffer, consume the remaining
read chunks, emitting the chunks decoded from every complete line; when the
reader is done, the remaining buffer is processed under the same
blank-skipping, error-tolerant rule. -/
def chatStreamRun (parse : Str → Option JsonChunk) : Str → List Str → List ChatChunk
  | buffer, [] => processLine parse buffer
  | buffer, value :: rest =>
    let p := splitBuf (buffer ++ value)
    (p.1.map (processLine parse)).flatten ++ chatStreamRun parse p.2 rest

/-- Result of decoding a whole payload delivered as one piece: every complete
line, then the final fragment. -/
def decodeWhole (parse : Str → Option JsonChunk) (payload : Str) : List ChatChunk :=
  ((splitBuf payload).1.map (processLine parse)).flatten
    ++ processLine parse (splitBuf payload).2

/-- The transport-level view of the `fetch` response consumed by `chatStream`:
the `ok` flag, the numeric `status`, and the body as the list of chunks the
reader delivers. -/
structure HttpResponse where
  ok : Bool
  status : Nat
  body : List Str
deriving DecidableEq, Repr

/-- The `chatStream` generator of `ollamaClient.ts`: on a non-success
response it throws (modelled as `Except.error` carrying the status) before
reading anything; otherwise it yields the chunks decoded by the frame loop. -/
def chatStream (parse : Str → Option JsonChunk) (res : HttpResponse) :
    Except Nat (List ChatChunk) :=
  if res.ok then Except.ok (chatStreamRun parse [] res.body)
  else Except.error res.status

/-- Return type of the non-streaming `chat` convenience method. -/
structure ChatResult where
  content : Str
  thinking : Str
  promptTokens : Nat
  evalTokens : Nat
deriving DecidableEq, Repr

/-- Loop body of `chat`: `content += chunk.content; thinking += chunk.thinking;
if (chunk.promptTokens) promptTokens = chunk.promptTokens;
if (chunk.evalTokens) evalTokens = chunk.evalTokens;` — note that the two
`if`s test JavaScript truthiness, so an absent count and a count of `0` both
leave the accumulator unchanged. -/
def chatAccStep (r : ChatResult) (ch : ChatChunk) : ChatResult :=
  { content := r.content ++ ch.content
    thinking := r.thinking ++ ch.thinking
    promptTokens :=
      match ch.promptTokens with
      | some v => if v ≠ 0 then v else r.promptTokens
      | none => r.promptTokens
    evalTokens :=
      match ch.evalTokens with
      | some v => if v ≠ 0 then v else r.evalTokens
      | none => r.evalTokens }

/-- The non-streaming `chat` method of `ollamaClient.ts`: folds the chunks of
one `chatStream` call, starting from empty strings and zero counts; an error
thrown by `chatStream` propagates. -/
def chat (parse : Str → Option JsonChunk) (res : HttpResponse) :
    Except Nat ChatResult :=
  match chatStream parse res with
  | Except.error e => Except.error e
  | Except.ok chunks => Except.ok (chunks.foldl chatAccStep ⟨[], [], 0, 0⟩)

/-- Modelled from the spec: the "final prompt/evaluation token counts the
stream produced, or 0 if the stream produced none" — the last count field
actually present on a yielded chunk, `0` when no chunk carries the field. -/
def finalProducedToken (chunks : List ChatChunk) (f : ChatChunk → Option Nat) : Nat :=
  (chunks.filterMap f).getLastD 0

/-- The value the `chat` fold actually keeps for a token counter: the last
nonzero count the stream produced, `0` when every produced count is zero or
absent. -/
def lastNonzeroToken (chunks : List ChatChunk) (f : ChatChunk → Option Nat) : Nat :=
  ((chunks.filterMap f).filter (fun v => v ≠ 0)).getLastD 0

/-- A concrete line parser used to instantiate the streaming theorems on
concrete inputs: it accepts exactly the line `{}` and maps it to a record
whose message content is `h`. -/
def parseBrace : Str → Option JsonChunk := fun l =>
  if l = ['{', '}'] then some ⟨some ['h'], none, none, none, none⟩ else none

/-- A concrete line parser whose two accepted lines carry token counts:
line `A` carries `prompt_eval_count 10, eval_count 5`, line `B` carries the
explicit counts `0` on the final record. -/
def parseTok : Str → Option JsonChunk := fun l =>
  if l = ['A'] then some ⟨none, none, none, some 10, some 5⟩
  else if l = ['B'] then some ⟨none, none, some true, some 0, some 0⟩
  else none

/-- A successful response whose body is the payload `A\nB` in one read. -/
def resTok : HttpResponse := ⟨true, 200, [['A', '\n', 'B']]⟩

/-- The chunk sequence `chatStream parseTok resTok` yields. -/
def tokChunks : List ChatChunk :=
  [⟨[], [], false, some 10, some 5⟩, ⟨[], [], true, some 0, some 0⟩]

/- ========== Session Store (ChatManager, src/chatManager.ts) ========== -/

/-- Message roles stored in session history. -/
inductive Role where
  | user
  | assistant
deriving DecidableEq, Repr

/-- The `Message` interface of `chatManager.ts`; `Date` values are
milliseconds since the epoch. -/
structure Message where
  role : Role
  content : Str
  thinking : Option Str
  thinkingTime : Option Nat
  timestamp : Int
deriving DecidableEq, Repr

/-- The `Chat` interface of `chatManager.ts`. -/
structure Chat where
  id : String
  title : Str
  model : String
  createdAt : Int
  messages : List Message
  contextUsed : Nat
  contextTotal : Nat
deriving DecidableEq, Repr

/-- The mutable state of a `ChatManager`: the recency-ordered chat list and
the active-chat pointer. -/
structure CMState where
  chats : List Chat
  activeId : Option String
deriving DecidableEq, Repr

/-- JavaScript `String.prototype.trim`: strips leading and trailing
whitespace. -/
def trimL (l : Str) : Str :=
  ((l.dropWhile Char.isWhitespace).reverse.dropWhile Char.isWhitespace).reverse

/-- Effect of `this.chats.find(…)` followed by in-place mutation of the found
object: the first chat satisfying the predicate is replaced, everything else
is untouched; no-op when nothing matches. -/
def updateFirst (p : Chat → Bool) (f : Chat → Chat) : List Chat → List Chat
  | [] => []
  | c :: cs => if p c then f c :: cs else c :: updateFirst p f cs

/-- ChatManager.createChat: a fresh chat (the generated uuid is passed in as
`id`, `new Date()` as `time`) is unshifted onto the front and becomes
active. -/
def createChat (st : CMState) (id : String) (modelName : String) (time : Int) : CMState :=
  { chats := ⟨id, "New Chat".toList, modelName, time, [], 0, 4096⟩ :: st.chats
    activeId := some id }

/-- ChatManager.getActive: `this.chats.find(c => c.id === this.activeId) || null`. -/
def getActive (st : CMState) : Option Chat :=
  match st.activeId with
  | none => none
  | some a => st.chats.find? (fun c => c.id == a)

/-- ChatManager.setActive: switches the pointer only when some chat has the
given id. -/
def setActive (st : CMState) (id : String) : CMState :=
  if st.chats.any (fun c => c.id == id) then { st with activeId := some id } else st

/-- ChatManager.deleteChat: filters the chat out; when it was active the new
pointer is `this.chats[0]?.id || null` — note that an empty-string id at the
front is falsy and therefore yields `null`. -/
def deleteChat (st : CMState) (id : String) : CMState :=
  let chats' := st.chats.filter (fun c => c.id != id)
  { chats := chats'
    activeId :=
      if st.activeId = some id then
        match chats' with
        | [] => none
        | c :: _ => if c.id = "" then none else some c.id
      else st.activeId }

/-- ChatManager.renameChat: `chat.title = title.trim() || 'New Chat'` on the
found chat. -/
def renameChat (st : CMState) (id : String) (title : Str) : CMState :=
  { st with
    chats := updateFirst (fun c => c.id == id)
      (fun c =>
        { c with title := if trimL title = [] then "New Chat".toList else trimL title })
      st.chats }

/-- The ellipsis marker `'...'` appended to truncated titles. -/
def ellipsis : Str := ['.', '.', '.']

/-- ChatManager.addMessage: pushes the message onto the found chat's log and,
when the pushed message is the log's only entry and is a user message,
derives the title `content.slice(0, 40) + (content.length > 40 ? '...' : '')`
from the trimmed content. -/
def addMessage (st : CMState) (chatId : String) (msg : Message) : CMState :=
  { st with
    chats := updateFirst (fun c => c.id == chatId)
      (fun c =>
        let msgs := c.messages ++ [msg]
        { c with
          messages := msgs
          title :=
            if msgs.length = 1 ∧ msg.role = Role.user then
              (trimL msg.content).take 40
                ++ (if (trimL msg.content).length > 40 then ellipsis else [])
            else c.title })
      st.chats }

/-- ChatManager.updateContext: overwrites the found chat's usage snapshot. -/
def updateContext (st : CMState) (chatId : String) (used total : Nat) : CMState :=
  { st with
    chats := updateFirst (fun c => c.id == chatId)
      (fun c => { c with contextUsed := used, contextTotal := total })
      st.chats }

/-- ChatManager.clearAllChats. -/
def clearAllChats (_st : CMState) : CMState := ⟨[], none⟩

/-- Return type of `getChatsGroupedByDate`. -/
structure ChatsGroupedByDate where
  today : List Chat
  yesterday : List Chat
  older : List Chat
deriving DecidableEq, Repr

/-- ChatManager.getChatsGroupedByDate: `midnight` is the embedding of
`new Date(now.getFullYear(), now.getMonth(), now.getDate())` (the local
midnight preceding "now", in milliseconds) and the yesterday boundary is the
literal `today.getTime() - 86400000` of the source. -/
def getChatsGroupedByDate (midnight : Int) (chats : List Chat) : ChatsGroupedByDate :=
  { today := chats.filter (fun c => decide (midnight ≤ c.createdAt))
    yesterday := chats.filter
      (fun c => decide (midnight - 86400000 ≤ c.createdAt ∧ c.createdAt < midnight))
    older := chats.filter (fun c => decide (c.createdAt < midnight - 86400000)) }

/-- Boolean form of the active-pointer invariant: the pointer is null or
names a chat present in the collection. -/
def activeOkB (st : CMState) : Bool :=
  match st.activeId with
  | none => true
  | some a => st.chats.any (fun c => c.id == a)

/-- The active-pointer invariant of the session store. -/
abbrev ActiveOk (st : CMState) : Prop := activeOkB st = true

/-- One public mutating operation of the `ChatManager` API (the uuid of
`createChat` and the `Date` values are data of the operation). -/
inductive CMOp where
  | create (id modelName : String) (time : Int)
  | activate (id : String)
  | del (id : String)
  | rename (id : String) (title : Str)
  | addMsg (id : String) (msg : Message)
  | clearAll
deriving Repr

/-- Interpretation of one operation on the store state. -/
def applyOp (st : CMState) : CMOp → CMState
  | CMOp.create id m t => createChat st id m t
  | CMOp.activate id => setActive st id
  | CMOp.del id => deleteChat st id
  | CMOp.rename id title => renameChat st id title
  | CMOp.addMsg id msg => addMessage st id msg
  | CMOp.clearAll => clearAllChats st

/-- Runs a sequence of operations from the empty store. -/
def runOps (ops : List CMOp) : CMState := ops.foldl applyOp ⟨[], none⟩

/- ========== Context Usage Tracker (ContextTracker, src/contextTracker.ts) ========== -/

/-- The tracker's `Map<string, {used, total}>` as an association list in
insertion order. -/
abbrev TrackerState := List (String × Nat × Nat)

/-- Map.get. -/
def ctLookup : TrackerState → String → Option (Nat × Nat)
  | [], _ => none
  | (k, v) :: rest, id => if k = id then some v else ctLookup rest id

/-- Map.set: replaces in place, inserts at the end when the key is new. -/
def ctSet : TrackerState → String → Nat × Nat → TrackerState
  | [], id, v => [(id, v)]
  | (k, w) :: rest, id, v =>
    if k = id then (k, v) :: rest else (k, w) :: ctSet rest id v

/-- ContextTracker.update: `used = promptTokens + evalTokens`. -/
def ContextTracker.update (trk : TrackerState) (chatId : String)
    (promptTokens evalTokens total : Nat) : TrackerState :=
  ctSet trk chatId (promptTokens + evalTokens, total)

/-- The `ContextUsage` interface; the JavaScript float `percent` is carried
as an exact rational. -/
structure ContextUsage where
  percent : ℚ
  used : Nat
  total : Nat
deriving DecidableEq, Repr

/-- JavaScript `Math.round`: nearest integer, ties toward positive
infinity. -/
def jsRound (q : ℚ) : ℤ := ⌊q + 1/2⌋

/-- ContextTracker.getUsage: `{percent: 0, used: 0, total: 4096}` when no
snapshot is stored, otherwise `Math.round((used / total) * 1000) / 10`
computed in exact arithmetic. -/
def ContextTracker.getUsage (trk : TrackerState) (chatId : String) : ContextUsage :=
  match ctLookup trk chatId with
  | none => ⟨0, 0, 4096⟩
  | some (used, total) =>
    ⟨(jsRound ((used : ℚ) / (total : ℚ) * 1000) : ℚ) / 10, used, total⟩

/-- JavaScript `x.toFixed(1)` for the nonnegative values at hand: one-decimal
rounding, ties toward positive infinity, rendered `"<int>.<tenth>"`. -/
def toFixed1 (q : ℚ) : String :=
  toString (jsRound (q * 10) / 10) ++ "." ++ toString (jsRound (q * 10) % 10)

/-- ContextTracker.formatK: thousands get one decimal and a `K` suffix,
smaller values print as plain integers. -/
def formatK (n : Nat) : String :=
  if 1000 ≤ n then toFixed1 ((n : ℚ) / 1000) ++ "K" else toString n

/-- JavaScript number-to-string interpolation for the one-decimal percent
values produced by `getUsage`: an integral value prints with no decimal
point, otherwise one decimal digit is printed. -/
def renderNumber (q : ℚ) : String :=
  if ⌊q * 10⌋ % 10 = 0 then toString (⌊q * 10⌋ / 10)
  else toString (⌊q * 10⌋ / 10) ++ "." ++ toString (⌊q * 10⌋ % 10)

/-- ContextTracker.formatDisplay. -/
def ContextTracker.formatDisplay (trk : TrackerState) (chatId : String) : String :=
  renderNumber (ContextTracker.getUsage trk chatId).percent ++ "% · "
    ++ formatK (ContextTracker.getUsage trk chatId).used ++ " / "
    ++ formatK (ContextTracker.getUsage trk chatId).total ++ " context used"

/- ========== Orchestrator (OllamaChatProvider.handleSendMessage) ========== -/

/-- The provider state touched by `handleSendMessage`: the session store and
the context tracker. -/
structure ProviderState where
  cm : CMState
  tracker : TrackerState
deriving Repr

/-- Accumulator of the `for await` loop of `handleSendMessage`. -/
structure StreamAcc where
  thinking : Str
  content : Str
  lastThinkingTime : Nat
  idx : Nat
  cm : CMState
  tracker : TrackerState

/-- One iteration of the `for await` loop: thinking and content fragments are
appended when truthy (non-empty); on a chunk with `done` and both token
counts defined (an explicit 0 counts as defined here), the tracker and the
store's embedded snapshot are updated with the same numbers. `elapsed i` is
the wall-clock seconds elapsed when the i-th chunk arrives. -/
def streamStep (chatId : String) (ctxLen : Nat) (elapsed : Nat → Nat)
    (acc : StreamAcc) (ch : ChatChunk) : StreamAcc :=
  let thinking := if ch.thinking ≠ [] then acc.thinking ++ ch.thinking else acc.thinking
  let ltt := if ch.thinking ≠ [] then elapsed acc.idx else acc.lastThinkingTime
  let content := if ch.content ≠ [] then acc.content ++ ch.content else acc.content
  if ch.done ∧ ch.promptTokens.isSome ∧ ch.evalTokens.isSome then
    { thinking := thinking, content := content, lastThinkingTime := ltt, idx := acc.idx + 1
      cm := updateContext acc.cm chatId (ch.promptTokens.getD 0 + ch.evalTokens.getD 0) ctxLen
      tracker := ContextTracker.update acc.tracker chatId
        (ch.promptTokens.getD 0) (ch.evalTokens.getD 0) ctxLen }
  else
    { thinking := thinking, content := content, lastThinkingTime := ltt, idx := acc.idx + 1
      cm := acc.cm, tracker := acc.tracker }

/-- OllamaChatProvider.handleSendMessage, state effects only: no-op without
an active chat or with blank text; appends the trimmed user message; on a
transport error from `chatStream` the catch block mutates nothing further;
on success the loop runs and one assistant message is appended, with the
thinking text and time only when thinking text arrived. `now`/`now2` embed
the two `new Date()` calls, `ctxLen` the fetched `modelInfo.contextLength`. -/
def handleSendMessage (st : ProviderState) (text : Str) (now now2 : Int)
    (ctxLen : Nat) (elapsed : Nat → Nat) (parse : Str → Option JsonChunk)
    (res : HttpResponse) : ProviderState :=
  match getActive st.cm with
  | none => st
  | some chatC =>
    if isBlank text then st
    else
      let userMsg : Message := ⟨Role.user, trimL text, none, none, now⟩
      let cm1 := addMessage st.cm chatC.id userMsg
      match chatStream parse res with
      | Except.error _ => ⟨cm1, st.tracker⟩
      | Except.ok chunks =>
        let a := chunks.foldl (streamStep chatC.id ctxLen elapsed) ⟨[], [], 0, 0, cm1, st.tracker⟩
        let assistantMsg : Message :=
          ⟨Role.assistant, a.content,
           if a.thinking ≠ [] then some a.thinking else none,
           if a.thinking ≠ [] then some a.lastThinkingTime else none, now2⟩
        ⟨addMessage a.cm chatC.id assistantMsg, a.tracker⟩

/-- Concrete chat, store and message used to instantiate the store
theorems. -/
def cA : Chat := ⟨"a", ['t'], "m", 0, [], 0, 4096⟩

/-- A store holding only `cA`, which is active. -/
def stC : CMState := ⟨[cA], some "a"⟩

/-- A 50-character user message of `x` characters. -/
def msg50 : Message := ⟨Role.user, List.replicate 50 'x', none, none, 7⟩

/-- Provider state with the single active chat `cA` and an empty tracker. -/
def stP : ProviderState := ⟨⟨[cA], some "a"⟩, []⟩

/-- A failed transport response with status 500. -/
def resFail : HttpResponse := ⟨false, 500, []⟩

/-- A line parser rejecting every line. -/
def parseNone : Str → Option JsonChunk := fun _ => none

/-- A chat whose id is the empty string, created later than `cIdA`. -/
def cEmptyId : Chat := ⟨"", ['t'], "m", 5, [], 0, 0⟩

/-- A chat with id `a`, created earlier than `cEmptyId`. -/
def cIdA : Chat := ⟨"a", ['t'], "m", 3, [], 0, 0⟩

/-- A store in recency order whose front chat has the empty-string id and
whose active chat is `a`. -/
def stDel : CMState := ⟨[cEmptyId, cIdA], some "a"⟩

/-- Three chats in recency order with the middle one active. -/
def stDel3 : CMState :=
  ⟨[⟨"x", [], "m", 30, [], 0, 0⟩, ⟨"y", [], "m", 20, [], 0, 0⟩,
    ⟨"z", [], "m", 10, [], 0, 0⟩], some "y"⟩

/-- A concrete operation sequence: create a chat, try to activate a missing
id, delete the chat. -/
def opsW : List CMOp :=
  [CMOp.create "a" "m" 0, CMOp.activate "nope", CMOp.del "a"]

/- ===================== theorems ===================== -/

theorem splitBuf_no_newline {l : Str} (h : '\n' ∉ l) : splitBuf l = ([], l) := by
  induction l with
  | nil => rfl
  | cons c cs ih =>
    have hc : c ≠ '\n' := fun hh => h (hh ▸ List.mem_cons_self c cs)
    have hcs : '\n' ∉ cs := fun hh => h (List.mem_cons_of_mem c hh)
    simp [splitBuf, hc, ih hcs]

theorem splitBuf_rest_no_newline (l : Str) : '\n' ∉ (splitBuf l).2 := by
  induction l with
  | nil => simp [splitBuf]
  | cons c cs ih =>
    by_cases hc : c = '\n'
    · simp [splitBuf, hc, ih]
    · rcases h1 : (splitBuf cs).1 with _ | ⟨l0, ls⟩
      · simp only [splitBuf, if_neg hc, h1]
        intro hmem
        rcases List.mem_cons.mp hmem with h | h
        · exact hc h.symm
        · exact ih h
      · simp [splitBuf, hc, h1, ih]

theorem splitBuf_append (a b : Str) :
    splitBuf (a ++ b) =
      match (splitBuf b).1 with
      | [] => ((splitBuf a).1, (splitBuf a).2 ++ (splitBuf b).2)
      | l :: ls => ((splitBuf a).1 ++ ((splitBuf a).2 ++ l) :: ls, (splitBuf b).2) := by
  induction a with
  | nil =>
    rcases hb : (splitBuf b).1 with _ | ⟨l, ls⟩
    · simp [splitBuf, hb, Prod.ext_iff]
    · simp [splitBuf, hb, Prod.ext_iff]
  | cons c a ih =>
    by_cases hc : c = '\n'
    · rcases hb : (splitBuf b).1 with _ | ⟨l, ls⟩ <;>
        simp_all [splitBuf, hc, ih, List.cons_append]
    · rcases hb : (splitBuf b).1 with _ | ⟨l, ls⟩
      · rcases ha : (splitBuf a).1 with _ | ⟨l', ls'⟩ <;>
          simp_all [splitBuf, hc, List.cons_append]
      · rcases ha : (splitBuf a).1 with _ | ⟨l', ls'⟩ <;>
          simp_all [splitBuf, hc, List.cons_append, List.append_assoc]

theorem decodeWhole_append (parse : Str → Option JsonChunk) (a b : Str) :
    decodeWhole parse (a ++ b) =
      ((splitBuf a).1.map (processLine parse)).flatten
        ++ decodeWhole parse ((splitBuf a).2 ++ b) := by
  have ha2 := splitBuf_no_newline (splitBuf_rest_no_newline a)
  have h1 := splitBuf_append a b
  have h2 := splitBuf_append ((splitBuf a).2) b
  rw [ha2] at h2
  rcases hb : (splitBuf b).1 with _ | ⟨l, ls⟩
  · rw [hb] at h1 h2
    simp only at h1 h2
    simp [decodeWhole, h1, h2]
  · rw [hb] at h1 h2
    simp only at h1 h2
    simp [decodeWhole, h1, h2, List.append_assoc]

theorem chatStreamRun_eq_decodeWhole (parse : Str → Option JsonChunk)
    (chunks : List Str) :
    ∀ buffer : Str, '\n' ∉ buffer →
      chatStreamRun parse buffer chunks = decodeWhole parse (buffer ++ chunks.flatten) := by
  induction chunks with
  | nil =>
    intro buffer h
    simp [chatStreamRun, decodeWhole, splitBuf_no_newline h]
  | cons c cs ih =>
    intro buffer h
    have hrest := splitBuf_rest_no_newline (buffer ++ c)
    calc chatStreamRun parse buffer (c :: cs)
        = ((splitBuf (buffer ++ c)).1.map (processLine parse)).flatten
            ++ chatStreamRun parse (splitBuf (buffer ++ c)).2 cs := rfl
      _ = ((splitBuf (buffer ++ c)).1.map (processLine parse)).flatten
            ++ decodeWhole parse ((splitBuf (buffer ++ c)).2 ++ cs.flatten) := by
            rw [ih _ hrest]
      _ = decodeWhole parse ((buffer ++ c) ++ cs.flatten) := (decodeWhole_append ..).symm
      _ = decodeWhole parse (buffer ++ (c :: cs).flatten) := by
            simp [List.append_assoc]

/-- C1: for every line parser and every way of splitting a payload into read
chunks, the frame-decoding loop of `chatStream` yields exactly the same
ordered chunk sequence as decoding the whole payload delivered as a single
read, blank lines being ignored in both runs. -/
theorem chatStream_split_invariant (parse : Str → Option JsonChunk)
    (chunks : List Str) :
    chatStreamRun parse [] chunks = chatStreamRun parse [] [chunks.flatten] := by
  have h1 := chatStreamRun_eq_decodeWhole parse chunks [] (by simp)
  have h2 := chatStreamRun_eq_decodeWhole parse [chunks.flatten] [] (by simp)
  simp only [List.nil_append, List.flatten_cons, List.flatten_nil,
    List.append_nil] at h1 h2
  rw [h1, h2]

theorem splitBuf_cons_newline (x rest : Str) (h : '\n' ∉ x) :
    splitBuf (x ++ '\n' :: rest) = (x :: (splitBuf rest).1, (splitBuf rest).2) := by
  induction x with
  | nil => simp [splitBuf]
  | cons c x ih =>
    have hc : c ≠ '\n' := fun hh => h (hh ▸ List.mem_cons_self c x)
    have hx : '\n' ∉ x := fun hh => h (List.mem_cons_of_mem c hh)
    simp [splitBuf, hc, ih hx]

theorem chatStreamRun_three_lines (parse : Str → Option JsonChunk) (x y z : Str)
    (nx : '\n' ∉ x) (ny : '\n' ∉ y) (nz : '\n' ∉ z) :
    chatStreamRun parse [] [x ++ ('\n' :: (y ++ ('\n' :: z)))]
      = processLine parse x ++ processLine parse y ++ processLine parse z := by
  have hs : splitBuf (x ++ ('\n' :: (y ++ ('\n' :: z)))) = ([x, y], z) := by
    rw [splitBuf_cons_newline x _ nx, splitBuf_cons_newline y _ ny,
      splitBuf_no_newline nz]
  simp [chatStreamRun, hs, List.append_assoc]

/-- C2: inserting one unparsable line between two valid, non-blank lines
yields exactly the two chunks decoded from the valid lines, in order, with no
error; replacing the bad line by any valid non-blank line makes the yielded
sequence exactly one element longer. -/
theorem chatStream_malformed_tolerance (parse : Str → Option JsonChunk)
    (l1 b l2 v : Str) (j1 j2 jv : JsonChunk)
    (h1 : parse l1 = some j1) (h2 : parse l2 = some j2)
    (hb : parse b = none) (hv : parse v = some jv)
    (n1 : '\n' ∉ l1) (nb : '\n' ∉ b) (n2 : '\n' ∉ l2) (nv : '\n' ∉ v)
    (bl1 : isBlank l1 = false) (bl2 : isBlank l2 = false) (blv : isBlank v = false) :
    chatStreamRun parse [] [l1 ++ ('\n' :: (b ++ ('\n' :: l2)))]
        = [toChatChunk j1, toChatChunk j2] ∧
    (chatStreamRun parse [] [l1 ++ ('\n' :: (v ++ ('\n' :: l2)))]).length
      = (chatStreamRun parse [] [l1 ++ ('\n' :: (b ++ ('\n' :: l2)))]).length + 1 := by
  have pb : processLine parse b = [] := by
    simp [processLine, hb]
  have e1 := chatStreamRun_three_lines parse l1 b l2 n1 nb n2
  have e2 := chatStreamRun_three_lines parse l1 v l2 n1 nv n2
  rw [pb] at e1
  constructor
  · rw [e1]
    simp [processLine, bl1, bl2, h1, h2]
  · rw [e1, e2]
    simp [processLine, bl1, bl2, blv, h1, h2, hv]

theorem chatStream_malformed_tolerance_witness :
    (parseBrace ['{', '}'] = some ⟨some ['h'], none, none, none, none⟩ ∧
     parseBrace ['x'] = none ∧ isBlank ['{', '}'] = false) ∧
    chatStreamRun parseBrace [] [['{', '}'] ++ ('\n' :: (['x'] ++ ('\n' :: ['{', '}'])))]
        = [toChatChunk ⟨some ['h'], none, none, none, none⟩,
           toChatChunk ⟨some ['h'], none, none, none, none⟩] ∧
    (chatStreamRun parseBrace []
        [['{', '}'] ++ ('\n' :: (['{', '}'] ++ ('\n' :: ['{', '}'])))]).length
      = (chatStreamRun parseBrace []
        [['{', '}'] ++ ('\n' :: (['x'] ++ ('\n' :: ['{', '}'])))]).length + 1 :=
  ⟨by decide,
   chatStream_malformed_tolerance parseBrace ['{', '}'] ['x'] ['{', '}'] ['{', '}']
     ⟨some ['h'], none, none, none, none⟩ ⟨some ['h'], none, none, none, none⟩
     ⟨some ['h'], none, none, none, none⟩
     (by decide) (by decide) (by decide) (by decide) (by decide) (by decide)
     (by decide) (by decide) (by decide) (by decide) (by decide)⟩

theorem getLastD_filter_cons (p : Nat) (l : List Nat) (d : Nat) :
    ((p :: l).filter (fun x => x ≠ 0)).getLastD d
      = (l.filter (fun x => x ≠ 0)).getLastD (if p ≠ 0 then p else d) := by
  by_cases hp : p = 0
  · simp [hp, List.filter_cons]
  · rw [List.filter_cons, if_pos (by simp [hp]), List.getLastD_cons, if_pos hp]

theorem chat_foldl_characterisation (chunks : List ChatChunk) :
    ∀ r : ChatResult, chunks.foldl chatAccStep r =
      ⟨r.content ++ (chunks.map ChatChunk.content).flatten,
       r.thinking ++ (chunks.map ChatChunk.thinking).flatten,
       ((chunks.filterMap ChatChunk.promptTokens).filter (fun x => x ≠ 0)).getLastD r.promptTokens,
       ((chunks.filterMap ChatChunk.evalTokens).filter (fun x => x ≠ 0)).getLastD r.evalTokens⟩ := by
  induction chunks with
  | nil => intro r; simp
  | cons ch chs ih =>
    intro r
    rw [List.foldl_cons, ih]
    rcases hpt : ch.promptTokens with _ | p <;> rcases het : ch.evalTokens with _ | q <;>
      simp only [chatAccStep, hpt, het, List.filterMap_cons, List.map_cons,
        List.flatten_cons, ChatResult.mk.injEq, List.append_assoc,
        getLastD_filter_cons]

/-- C9 (amended): the non-streaming `chat` returns the in-order concatenation
of the content fields and of the thinking fields of the chunks `chatStream`
yields, and for each token counter the last nonzero count the stream
produced — a yielded count of 0 is ignored by the truthiness test — or 0 if
the stream produced none. -/
theorem chat_collects_stream (parse : Str → Option JsonChunk) (res : HttpResponse)
    (chunks : List ChatChunk) (h : chatStream parse res = Except.ok chunks) :
    chat parse res = Except.ok
      ⟨(chunks.map ChatChunk.content).flatten,
       (chunks.map ChatChunk.thinking).flatten,
       lastNonzeroToken chunks ChatChunk.promptTokens,
       lastNonzeroToken chunks ChatChunk.evalTokens⟩ := by
  simp [chat, h, chat_foldl_characterisation, lastNonzeroToken]

theorem chat_collects_stream_witness :
    chatStream parseTok resTok = Except.ok tokChunks ∧
    chat parseTok resTok = Except.ok
      ⟨(tokChunks.map ChatChunk.content).flatten,
       (tokChunks.map ChatChunk.thinking).flatten,
       lastNonzeroToken tokChunks ChatChunk.promptTokens,
       lastNonzeroToken tokChunks ChatChunk.evalTokens⟩ :=
  ⟨rfl, chat_collects_stream parseTok resTok tokChunks rfl⟩

/-- C9 counterexample: on the stream `A\nB` of `parseTok`, the final prompt
and evaluation counts the stream produces are the explicit zeros of the last
record, yet `chat` returns the earlier nonzero counts 10 and 5, because the
truthiness test `if (chunk.promptTokens)` ignores a count of 0; so the claim
as stated fails at this input. -/
theorem chat_final_token_counterexample :
    chatStream parseTok resTok = Except.ok tokChunks ∧
    finalProducedToken tokChunks ChatChunk.promptTokens = 0 ∧
    finalProducedToken tokChunks ChatChunk.evalTokens = 0 ∧
    chat parseTok resTok = Except.ok ⟨[], [], 10, 5⟩ ∧
    chat parseTok resTok ≠ Except.ok
      ⟨(tokChunks.map ChatChunk.content).flatten,
       (tokChunks.map ChatChunk.thinking).flatten,
       finalProducedToken tokChunks ChatChunk.promptTokens,
       finalProducedToken tokChunks ChatChunk.evalTokens⟩ := by
  refine ⟨rfl, rfl, rfl, rfl, ?_⟩
  intro h
  exact absurd (Except.ok.inj h) (by decide)

/-- C3: `getUsage` of a stored snapshot computes
`percent = round((used/total) × 1000) / 10` with round half toward positive
infinity; in particular the snapshot (8500, 204800) gives percent 4.2 and
(1024, 4096) gives percent 25.0. -/
theorem getUsage_percent_formula (trk : TrackerState) (chatId : String)
    (used total : Nat) (h : ctLookup trk chatId = some (used, total)) :
    (ContextTracker.getUsage trk chatId).percent
        = (jsRound ((used : ℚ) / (total : ℚ) * 1000) : ℚ) / 10 ∧
    (ContextTracker.getUsage [("s", (8500, 204800))] "s").percent = 42 / 10 ∧
    (ContextTracker.getUsage [("s", (1024, 4096))] "s").percent = 25 := by
  have hl1 : ctLookup [("s", (8500, 204800))] "s" = some (8500, 204800) := by
    simp [ctLookup]
  have hl2 : ctLookup [("s", (1024, 4096))] "s" = some (1024, 4096) := by
    simp [ctLookup]
  have hf1 : (⌊(8500 : ℚ) / 204800 * 1000 + 2⁻¹⌋ : ℤ) = 42 := by
    rw [Int.floor_eq_iff]
    norm_num
  have hf2 : (⌊(1024 : ℚ) / 4096 * 1000 + 2⁻¹⌋ : ℤ) = 250 := by
    rw [Int.floor_eq_iff]
    norm_num
  refine ⟨by simp [ContextTracker.getUsage, h], ?_, ?_⟩
  · simp [ContextTracker.getUsage, hl1, jsRound]
    rw [hf1]
    norm_num
  · simp [ContextTracker.getUsage, hl2, jsRound]
    rw [hf2]
    norm_num

theorem getUsage_percent_formula_witness :
    ctLookup [("s", (8500, 204800))] "s" = some (8500, 204800) ∧
    ((ContextTracker.getUsage [("s", (8500, 204800))] "s").percent
        = (jsRound (((8500 : Nat) : ℚ) / ((204800 : Nat) : ℚ) * 1000) : ℚ) / 10 ∧
     (ContextTracker.getUsage [("s", (8500, 204800))] "s").percent = 42 / 10 ∧
     (ContextTracker.getUsage [("s", (1024, 4096))] "s").percent = 25) :=
  ⟨by simp [ctLookup],
   getUsage_percent_formula [("s", (8500, 204800))] "s" 8500 204800 (by simp [ctLookup])⟩

theorem renderNumber_tenths (n : ℤ) :
    renderNumber ((n : ℚ) / 10)
      = if n % 10 = 0 then toString (n / 10)
        else toString (n / 10) ++ "." ++ toString (n % 10) := by
  have h : ((n : ℚ) / 10) * 10 = (n : ℚ) := by
    field_simp
  simp only [renderNumber, h, Int.floor_intCast]

/-- C8: `formatDisplay` renders `"<percent>% · <usedK> / <totalK> context used"`,
where `formatK` renders a value of 1000 or more as the value over 1000 rounded
to one decimal with a `K` suffix and a smaller value as the plain integer;
8500 renders as `8.5K`, 512 as `512`, 204800 as `204.8K`. -/
theorem formatDisplay_spec (trk : TrackerState) (chatId : String) (used total : Nat)
    (h : ctLookup trk chatId = some (used, total)) :
    ContextTracker.formatDisplay trk chatId
      = renderNumber (ContextTracker.getUsage trk chatId).percent ++ "% · "
        ++ formatK used ++ " / " ++ formatK total ++ " context used" ∧
    (∀ n : Nat, 1000 ≤ n → formatK n = toFixed1 ((n : ℚ) / 1000) ++ "K") ∧
    (∀ n : Nat, n < 1000 → formatK n = toString n) ∧
    formatK 8500 = "8.5K" ∧ formatK 512 = "512" ∧ formatK 204800 = "204.8K" ∧
    ContextTracker.formatDisplay [("s", (8500, 204800))] "s"
      = "4.2% · 8.5K / 204.8K context used" := by
  have hk1 : formatK 8500 = "8.5K" := by
    have k1 : (⌊(8500 : ℚ) / 1000 * 10 + 2⁻¹⌋ : ℤ) = 85 := by
      rw [Int.floor_eq_iff]
      norm_num
    simp [formatK, toFixed1, jsRound]
    rw [k1]
    decide
  have hk2 : formatK 512 = "512" := by decide
  have hk3 : formatK 204800 = "204.8K" := by
    have k3 : (⌊(204800 : ℚ) / 1000 * 10 + 2⁻¹⌋ : ℤ) = 2048 := by
      rw [Int.floor_eq_iff]
      norm_num
    simp [formatK, toFixed1, jsRound]
    rw [k3]
    decide
  refine ⟨?_, ?_, ?_, hk1, hk2, hk3, ?_⟩
  · simp [ContextTracker.formatDisplay, ContextTracker.getUsage, h]
  · intro n hn
    simp [formatK, hn]
  · intro n hn
    rw [formatK, if_neg (by omega)]
  · have hl1 : ctLookup [("s", (8500, 204800))] "s" = some (8500, 204800) := by
      simp [ctLookup]
    have hf1 : (⌊(8500 : ℚ) / 204800 * 1000 + 2⁻¹⌋ : ℤ) = 42 := by
      rw [Int.floor_eq_iff]
      norm_num
    have hp : (ContextTracker.getUsage [("s", (8500, 204800))] "s").percent
        = ((42 : ℤ) : ℚ) / 10 := by
      simp [ContextTracker.getUsage, hl1, jsRound]
      rw [hf1]
      norm_num
    have hu : (ContextTracker.getUsage [("s", (8500, 204800))] "s").used = 8500 := by
      simp [ContextTracker.getUsage, hl1]
    have ht : (ContextTracker.getUsage [("s", (8500, 204800))] "s").total = 204800 := by
      simp [ContextTracker.getUsage, hl1]
    rw [ContextTracker.formatDisplay, hp, hu, ht, renderNumber_tenths, hk1, hk3]
    decide

theorem formatDisplay_spec_witness :
    ctLookup [("s", (8500, 204800))] "s" = some (8500, 204800) ∧
    (ContextTracker.formatDisplay [("s", (8500, 204800))] "s"
      = renderNumber (ContextTracker.getUsage [("s", (8500, 204800))] "s").percent
        ++ "% · " ++ formatK 8500 ++ " / " ++ formatK 204800 ++ " context used" ∧
    (∀ n : Nat, 1000 ≤ n → formatK n = toFixed1 ((n : ℚ) / 1000) ++ "K") ∧
    (∀ n : Nat, n < 1000 → formatK n = toString n) ∧
    formatK 8500 = "8.5K" ∧ formatK 512 = "512" ∧ formatK 204800 = "204.8K" ∧
    ContextTracker.formatDisplay [("s", (8500, 204800))] "s"
      = "4.2% · 8.5K / 204.8K context used") :=
  ⟨by simp [ctLookup],
   formatDisplay_spec [("s", (8500, 204800))] "s" 8500 204800 (by simp [ctLookup])⟩

/-- C4 counterexample: with local midnight at time 0 and "now" 10 hours
later — which is after midnight by more than 2 hours — the session created
30 hours before "now" lands in the yesterday group, not in the older group
the claim requires, because the yesterday boundary sits a fixed 86400000 ms
before midnight. -/
theorem grouping_thirty_hours_counterexample :
    ((0 : Int) + 2 * 3600000 < 36000000 ∧ (36000000 : Int) < 0 + 86400000) ∧
    (getChatsGroupedByDate 0
      [⟨"a", [], "m", 36000000, [], 0, 0⟩,
       ⟨"b", [], "m", 28800000, [], 0, 0⟩,
       ⟨"c", [], "m", -72000000, [], 0, 0⟩]).today
      = [⟨"a", [], "m", 36000000, [], 0, 0⟩, ⟨"b", [], "m", 28800000, [], 0, 0⟩] ∧
    (getChatsGroupedByDate 0
      [⟨"a", [], "m", 36000000, [], 0, 0⟩,
       ⟨"b", [], "m", 28800000, [], 0, 0⟩,
       ⟨"c", [], "m", -72000000, [], 0, 0⟩]).yesterday
      = [⟨"c", [], "m", -72000000, [], 0, 0⟩] ∧
    (getChatsGroupedByDate 0
      [⟨"a", [], "m", 36000000, [], 0, 0⟩,
       ⟨"b", [], "m", 28800000, [], 0, 0⟩,
       ⟨"c", [], "m", -72000000, [], 0, 0⟩]).older = [] := by decide

/-- C4 (amended): when "now" is after local midnight by more than 2 hours
and by less than 6 hours, the sessions created at "now", "now − 2 h" and
"now − 30 h" land in today, today and older respectively. -/
theorem grouping_recency (midnight now : Int)
    (h2 : midnight + 2 * 3600000 < now) (h6 : now < midnight + 6 * 3600000) :
    (getChatsGroupedByDate midnight
      [⟨"a", [], "m", now, [], 0, 0⟩,
       ⟨"b", [], "m", now - 2 * 3600000, [], 0, 0⟩,
       ⟨"c", [], "m", now - 30 * 3600000, [], 0, 0⟩]).today
      = [⟨"a", [], "m", now, [], 0, 0⟩, ⟨"b", [], "m", now - 2 * 3600000, [], 0, 0⟩] ∧
    (getChatsGroupedByDate midnight
      [⟨"a", [], "m", now, [], 0, 0⟩,
       ⟨"b", [], "m", now - 2 * 3600000, [], 0, 0⟩,
       ⟨"c", [], "m", now - 30 * 3600000, [], 0, 0⟩]).yesterday = [] ∧
    (getChatsGroupedByDate midnight
      [⟨"a", [], "m", now, [], 0, 0⟩,
       ⟨"b", [], "m", now - 2 * 3600000, [], 0, 0⟩,
       ⟨"c", [], "m", now - 30 * 3600000, [], 0, 0⟩]).older
      = [⟨"c", [], "m", now - 30 * 3600000, [], 0, 0⟩] := by
  refine ⟨?_, ?_, ?_⟩ <;>
    · simp only [getChatsGroupedByDate, List.filter_cons, List.filter_nil,
        decide_eq_true_eq]
      split_ifs <;> first | rfl | (exfalso; omega)

theorem grouping_recency_witness :
    ((0 : Int) + 2 * 3600000 < 10800000 ∧ (10800000 : Int) < 0 + 6 * 3600000) ∧
    ((getChatsGroupedByDate 0
      [⟨"a", [], "m", 10800000, [], 0, 0⟩,
       ⟨"b", [], "m", 10800000 - 2 * 3600000, [], 0, 0⟩,
       ⟨"c", [], "m", 10800000 - 30 * 3600000, [], 0, 0⟩]).today
      = [⟨"a", [], "m", 10800000, [], 0, 0⟩,
         ⟨"b", [], "m", 10800000 - 2 * 3600000, [], 0, 0⟩] ∧
    (getChatsGroupedByDate 0
      [⟨"a", [], "m", 10800000, [], 0, 0⟩,
       ⟨"b", [], "m", 10800000 - 2 * 3600000, [], 0, 0⟩,
       ⟨"c", [], "m", 10800000 - 30 * 3600000, [], 0, 0⟩]).yesterday = [] ∧
    (getChatsGroupedByDate 0
      [⟨"a", [], "m", 10800000, [], 0, 0⟩,
       ⟨"b", [], "m", 10800000 - 2 * 3600000, [], 0, 0⟩,
       ⟨"c", [], "m", 10800000 - 30 * 3600000, [], 0, 0⟩]).older
      = [⟨"c", [], "m", 10800000 - 30 * 3600000, [], 0, 0⟩]) :=
  ⟨by decide, grouping_recency 0 10800000 (by decide) (by decide)⟩

theorem find?_updateFirst (p : Chat → Bool) (f : Chat → Chat)
    (hp : ∀ c, p (f c) = p c) :
    ∀ l : List Chat, (updateFirst p f l).find? p = (l.find? p).map f := by
  intro l
  induction l with
  | nil => rfl
  | cons c cs ih =>
    by_cases hc : p c = true
    · rw [updateFirst, if_pos hc, List.find?_cons_of_pos _ (by rw [hp]; exact hc),
        List.find?_cons_of_pos _ hc]
      rfl
    · rw [updateFirst, if_neg hc, List.find?_cons_of_neg _ hc,
        List.find?_cons_of_neg _ hc, ih]

/-- C5: appending a first user message to a session with an empty log sets
the title to the full trimmed text when it has at most 40 characters and to
its first 40 characters plus the ellipsis marker when longer; appending a
non-first message, or a first message whose role is not user, leaves the
title unchanged. -/
theorem addMessage_title_derivation (st : CMState) (chatId : String) (msg : Message)
    (c : Chat) (hfind : st.chats.find? (fun x => x.id == chatId) = some c) :
    ∃ c', (addMessage st chatId msg).chats.find? (fun x => x.id == chatId) = some c' ∧
      c'.messages = c.messages ++ [msg] ∧
      (c.messages = [] → msg.role = Role.user →
        c'.title = if (trimL msg.content).length ≤ 40 then trimL msg.content
          else (trimL msg.content).take 40 ++ ellipsis) ∧
      (c.messages ≠ [] → c'.title = c.title) ∧
      (msg.role ≠ Role.user → c'.title = c.title) := by
  have hfu := find?_updateFirst (fun x => x.id == chatId)
      (fun c =>
        let msgs := c.messages ++ [msg]
        { c with
          messages := msgs
          title :=
            if msgs.length = 1 ∧ msg.role = Role.user then
              (trimL msg.content).take 40
                ++ (if (trimL msg.content).length > 40 then ellipsis else [])
            else c.title })
      (fun x => rfl) st.chats
  rw [hfind] at hfu
  refine ⟨_, by simpa [addMessage] using hfu, rfl, ?_, ?_, ?_⟩
  · intro hm hr
    by_cases hlen : (trimL msg.content).length ≤ 40
    · have hgt : ¬ ((trimL msg.content).length > 40) := by omega
      simp [hm, hr, hlen, hgt, List.take_of_length_le hlen]
    · have hgt : (trimL msg.content).length > 40 := by omega
      simp [hm, hr, hlen, hgt]
  · intro hm
    simp [hm]
  · intro hr
    simp [hr]

theorem addMessage_title_derivation_witness :
    stC.chats.find? (fun x => x.id == "a") = some cA ∧
    (∃ c', (addMessage stC "a" msg50).chats.find? (fun x => x.id == "a") = some c' ∧
      c'.messages = cA.messages ++ [msg50] ∧
      (cA.messages = [] → msg50.role = Role.user →
        c'.title = if (trimL msg50.content).length ≤ 40 then trimL msg50.content
          else (trimL msg50.content).take 40 ++ ellipsis) ∧
      (cA.messages ≠ [] → c'.title = cA.title) ∧
      (msg50.role ≠ Role.user → c'.title = cA.title)) :=
  ⟨rfl, addMessage_title_derivation stC "a" msg50 cA rfl⟩

/-- C6: when the server responds with a non-success status, `chatStream`
fails immediately with the transport status, before yielding any chunk, and
`handleSendMessage` commits no assistant message and no usage mutation: the
resulting state is exactly the input state with only the user message
appended and the tracker untouched. -/
theorem transport_error_no_mutation (st : ProviderState) (text : Str)
    (now now2 : Int) (ctxLen : Nat) (elapsed : Nat → Nat)
    (parse : Str → Option JsonChunk) (res : HttpResponse) (chatC : Chat)
    (hact : getActive st.cm = some chatC) (htext : isBlank text = false)
    (hres : res.ok = false) :
    chatStream parse res = Except.error res.status ∧
    handleSendMessage st text now now2 ctxLen elapsed parse res
      = ⟨addMessage st.cm chatC.id ⟨Role.user, trimL text, none, none, now⟩,
         st.tracker⟩ := by
  have hcs : chatStream parse res = Except.error res.status := by
    simp [chatStream, hres]
  refine ⟨hcs, ?_⟩
  simp [handleSendMessage, hact, htext, hcs]

theorem transport_error_no_mutation_witness :
    (getActive stP.cm = some cA ∧ isBlank ['h', 'i'] = false ∧ resFail.ok = false) ∧
    (chatStream parseNone resFail = Except.error resFail.status ∧
     handleSendMessage stP ['h', 'i'] 1 2 4096 (fun _ => 0) parseNone resFail
       = ⟨addMessage stP.cm cA.id ⟨Role.user, trimL ['h', 'i'], none, none, 1⟩,
          stP.tracker⟩) :=
  ⟨⟨rfl, rfl, rfl⟩,
   transport_error_no_mutation stP ['h', 'i'] 1 2 4096 (fun _ => 0) parseNone
     resFail cA rfl rfl rfl⟩

/-- C7 counterexample: in the store `stDel` — which satisfies the
active-pointer invariant — deleting the active chat `a` leaves one chat (the
most recently created remaining session, at the front), but because its id
is the empty string the falsy check `this.chats[0]?.id || null` makes the
active pointer null instead of that session's id, so the claim fails at this
input. -/
theorem deleteChat_empty_id_counterexample :
    ActiveOk stDel ∧
    (deleteChat stDel "a").chats = [cEmptyId] ∧
    cEmptyId.id = "" ∧
    (deleteChat stDel "a").activeId = none := by decide

/-- C7 (amended): `deleteChat` removes every chat with the given id; when the
deleted chat was active, the new front of the collection becomes active
unless its id is the empty string (then no chat is active), and no chat is
active when the store empties; when the deleted chat was not active the
pointer is unchanged; on a store satisfying the active-pointer invariant,
deleting a non-existent id is a complete no-op; deleting the active middle
session of three leaves the most-recently-created remaining session
active. -/
theorem deleteChat_spec (st : CMState) (id : String) (hinv : ActiveOk st) :
    (deleteChat st id).chats = st.chats.filter (fun c => c.id != id) ∧
    (st.activeId = some id →
      ∀ c cs, st.chats.filter (fun c => c.id != id) = c :: cs → c.id ≠ "" →
        (deleteChat st id).activeId = some c.id) ∧
    (st.activeId = some id → st.chats.filter (fun c => c.id != id) = [] →
        (deleteChat st id).activeId = none) ∧
    (st.activeId ≠ some id → (deleteChat st id).activeId = st.activeId) ∧
    ((∀ c ∈ st.chats, c.id ≠ id) → deleteChat st id = st) ∧
    (∀ c1 c2 c3 : Chat, st.chats = [c1, c2, c3] → st.activeId = some c2.id →
      c1.id ≠ c2.id → c3.id ≠ c2.id → c1.id ≠ "" →
      c3.createdAt < c2.createdAt → c2.createdAt < c1.createdAt →
      (deleteChat st c2.id).chats = [c1, c3] ∧
      (deleteChat st c2.id).activeId = some c1.id) := by
  refine ⟨rfl, ?_, ?_, ?_, ?_, ?_⟩
  · intro hact c cs hf hne
    simp [deleteChat, hact, hf, hne]
  · intro hact hf
    simp [deleteChat, hact, hf]
  · intro hne
    simp [deleteChat, hne]
  · intro h
    have hfilter : st.chats.filter (fun c => c.id != id) = st.chats :=
      List.filter_eq_self.mpr (fun c hc => by
        simp only [bne_iff_ne, ne_eq, decide_eq_true_eq]
        exact h c hc)
    have hact : st.activeId ≠ some id := by
      intro he
      have h' := hinv
      simp only [ActiveOk, activeOkB, he, List.any_eq_true] at h'
      obtain ⟨c, hc, hcid⟩ := h'
      exact h c hc (by simpa using hcid)
    rcases st with ⟨chats, act⟩
    simp only at hfilter hact
    simp [deleteChat, hfilter, hact]
  · intro c1 c2 c3 h123 hact h1 h3 hne hlt1 hlt2
    have hf : st.chats.filter (fun c => c.id != c2.id) = [c1, c3] := by
      rw [h123]
      simp [List.filter_cons, bne_iff_ne, h1, h3]
    constructor
    · simpa [deleteChat] using hf
    · simp [deleteChat, hact, hf, hne]

theorem deleteChat_spec_witness :
    ActiveOk stDel3 ∧
    ((deleteChat stDel3 "y").chats = stDel3.chats.filter (fun c => c.id != "y") ∧
    (stDel3.activeId = some "y" →
      ∀ c cs, stDel3.chats.filter (fun c => c.id != "y") = c :: cs → c.id ≠ "" →
        (deleteChat stDel3 "y").activeId = some c.id) ∧
    (stDel3.activeId = some "y" → stDel3.chats.filter (fun c => c.id != "y") = [] →
        (deleteChat stDel3 "y").activeId = none) ∧
    (stDel3.activeId ≠ some "y" → (deleteChat stDel3 "y").activeId = stDel3.activeId) ∧
    ((∀ c ∈ stDel3.chats, c.id ≠ "y") → deleteChat stDel3 "y" = stDel3) ∧
    (∀ c1 c2 c3 : Chat, stDel3.chats = [c1, c2, c3] → stDel3.activeId = some c2.id →
      c1.id ≠ c2.id → c3.id ≠ c2.id → c1.id ≠ "" →
      c3.createdAt < c2.createdAt → c2.createdAt < c1.createdAt →
      (deleteChat stDel3 c2.id).chats = [c1, c3] ∧
      (deleteChat stDel3 c2.id).activeId = some c1.id)) :=
  ⟨by decide, deleteChat_spec stDel3 "y" (by decide)⟩

theorem updateFirst_any_id (p : Chat → Bool) (f : Chat → Chat)
    (hid : ∀ c, (f c).id = c.id) (a : String) :
    ∀ l : List Chat,
      ((updateFirst p f l).any (fun c => c.id == a)) = (l.any (fun c => c.id == a)) := by
  intro l
  induction l with
  | nil => rfl
  | cons c cs ih =>
    by_cases hc : p c = true
    · simp [updateFirst, hc, List.any_cons, hid]
    · simp [updateFirst, hc, List.any_cons, ih]

theorem activeOk_applyOp (st : CMState) (op : CMOp) (h : ActiveOk st) :
    ActiveOk (applyOp st op) := by
  cases op with
  | create id m t =>
    simp [applyOp, createChat, ActiveOk, activeOkB]
  | activate id =>
    by_cases hc : st.chats.any (fun c => c.id == id) = true
    · simp [applyOp, setActive, hc, ActiveOk, activeOkB]
    · simpa [applyOp, setActive, hc] using h
  | del id =>
    rcases hact : st.activeId with _ | a
    · simp [applyOp, deleteChat, hact, ActiveOk, activeOkB]
    · by_cases hai : a = id
      · subst hai
        rcases hf : st.chats.filter (fun c => c.id != a) with _ | ⟨c, cs⟩
        · simp [applyOp, deleteChat, hact, hf, ActiveOk, activeOkB]
        · by_cases hce : c.id = ""
          · simp [applyOp, deleteChat, hact, hf, hce, ActiveOk, activeOkB]
          · simp [applyOp, deleteChat, hact, hf, hce, ActiveOk, activeOkB, List.any_cons]
      · have h' := h
        simp only [ActiveOk, activeOkB, hact, List.any_eq_true] at h'
        obtain ⟨c, hc, hcid⟩ := h'
        have hcid' : c.id = a := by simpa using hcid
        have hmem : c ∈ st.chats.filter (fun x => x.id != id) :=
          List.mem_filter.mpr ⟨hc, by simp [bne_iff_ne, hcid', hai]⟩
        have hne : ¬ (some a = some id) := by simp [hai]
        simp only [applyOp, deleteChat, hact, ActiveOk, activeOkB, if_neg hne,
          List.any_eq_true]
        exact ⟨c, hmem, by simp [hcid']⟩
  | @rename id title =>
    rcases hact : st.activeId with _ | a
    · simp [applyOp, renameChat, ActiveOk, activeOkB, hact]
    · have h' := h
      simp only [ActiveOk, activeOkB, hact] at h'
      simp only [applyOp, renameChat, ActiveOk, activeOkB, hact]
      refine (updateFirst_any_id _ _ ?_ a st.chats).trans h'
      intro c
      rfl
  | addMsg id msg =>
    rcases hact : st.activeId with _ | a
    · simp [applyOp, addMessage, ActiveOk, activeOkB, hact]
    · have h' := h
      simp only [ActiveOk, activeOkB, hact] at h'
      simp only [applyOp, addMessage, ActiveOk, activeOkB, hact]
      refine (updateFirst_any_id _ _ ?_ a st.chats).trans h'
      intro c
      rfl
  | clearAll =>
    simp [applyOp, clearAllChats, ActiveOk, activeOkB]

theorem runOps_preserves (ops : List CMOp) :
    ∀ st : CMState, ActiveOk st → ActiveOk (ops.foldl applyOp st) := by
  induction ops with
  | nil => intro st h; exact h
  | cons op ops ih => intro st h; exact ih _ (activeOk_applyOp st op h)

/-- C10: after any sequence of store operations starting from the empty
store, the active pointer is null or the id of a chat present in the
collection; `getActive` only ever returns a chat present in the current
collection (so never a deleted one); and `setActive` with an id no chat has
leaves the store unchanged. -/
theorem chatManager_active_invariant (ops : List CMOp) :
    ActiveOk (runOps ops) ∧
    (∀ c, getActive (runOps ops) = some c → c ∈ (runOps ops).chats) ∧
    (∀ id, (∀ c ∈ (runOps ops).chats, c.id ≠ id) →
      setActive (runOps ops) id = runOps ops) := by
  refine ⟨runOps_preserves ops ⟨[], none⟩ rfl, ?_, ?_⟩
  · intro c hc
    rcases hact : (runOps ops).activeId with _ | a
    · simp only [getActive, hact] at hc
      exact absurd hc (by simp)
    · simp only [getActive, hact] at hc
      exact List.mem_of_find?_eq_some hc
  · intro id h
    have hcond : ¬ ((runOps ops).chats.any (fun c => c.id == id) = true) := by
      intro hany
      rw [List.any_eq_true] at hany
      obtain ⟨c, hc, he⟩ := hany
      exact h c hc (by simpa using he)
    simp only [setActive, if_neg hcond]

theorem chatManager_active_invariant_witness :
    ActiveOk (runOps opsW) ∧
    (∀ c, getActive (runOps opsW) = some c → c ∈ (runOps opsW).chats) ∧
    (∀ id, (∀ c ∈ (runOps opsW).chats, c.id ≠ id) →
      setActive (runOps opsW) id = runOps opsW) :=
  chatManager_active_invariant opsW
